import Mathlib

/-!
Verification of the q-trader repository against its natural-language
specification.  Each component referenced by a claim is shallowly embedded:
pure Python functions become Lean functions over explicit value types,
stateful objects become explicit state passing, fallible operations return
`Option` or `Except`.  Definitions are translated from the repository source
(file and line references are given in the doc comments); the order-command
engine, whose implementation file `src/trader/order_cmd.py` is not present in
the source tree, is modelled from the specification as marked.
-/

namespace QTrader

/-! ## Order command engine (claims C3, C4)

The implementation file `src/trader/order_cmd.py` is absent from the source
tree; only its test suite `tests/test_order_cmd.py` is available.  The
definitions in this section are therefore modelled from the specification
(§4.11 of spec.md), corroborated by the assertions of the test suite. -/

/-- Order offset tags, from spec §3: OPEN, CLOSE, CLOSETODAY. -/
inductive Offset where
  | OPEN
  | CLOSE
  | CLOSETODAY
  deriving DecidableEq, Repr

/-- One slice produced by the split strategy: a volume and the offset tag the
resulting child order will carry. -/
structure SplitOrder where
  volume : Nat
  offset : Offset
  deriving DecidableEq, Repr

/-- Modelled from the spec: `src/trader/order_cmd.py` is missing from the
source tree.  Splits a quantity `q` into slices of at most `M` each: full
slices of size `M` followed by a final remainder slice (spec §4.11, "the full
volume is divided into ceil(volume / max_volume_per_order) slices, each of
size max_volume_per_order except a final remainder slice"). -/
def chunkGo : Nat → Nat → Nat → List Nat
  | 0, _, _ => []
  | _, 0, _ => []
  | fuel + 1, q, M => if q ≤ M then [q] else M :: chunkGo fuel (q - M) M

/-- Splitting `q` into capped slices: the structural-fuel driver above is run
with fuel `q`, which suffices since the remaining quantity drops by `M ≥ 1`
at each step; a zero cap yields no slices (the strategy is only ever
constructed with a positive per-order cap). -/
def chunkVolumes (q M : Nat) : List Nat :=
  if M = 0 then [] else chunkGo q q M

theorem chunkGo_length (fuel : Nat) : ∀ q M : Nat, 0 < M → q ≤ fuel →
    (chunkGo fuel q M).length = (q + M - 1) / M := by
  induction fuel with
  | zero =>
    intro q M hM hq
    interval_cases q
    rw [show chunkGo 0 0 M = [] from rfl,
      Nat.div_eq_of_lt (show 0 + M - 1 < M by omega)]
    rfl
  | succ fuel ih =>
    intro q M hM hq
    match q with
    | 0 =>
      rw [show chunkGo (fuel + 1) 0 M = [] from rfl,
        Nat.div_eq_of_lt (show 0 + M - 1 < M by omega)]
      rfl
    | q + 1 =>
      show (if q + 1 ≤ M then [q + 1] else M :: chunkGo fuel (q + 1 - M) M).length = _
      split
      · next hle =>
        have : (q + 1 + M - 1) / M = 1 :=
          Nat.div_eq_of_lt_le (by omega) (by omega)
        simpa using this.symm
      · next hgt =>
        rw [List.length_cons, ih (q + 1 - M) M hM (by omega)]
        have e1 : q + 1 - M + M - 1 = q := by omega
        have e2 : q + 1 + M - 1 = q + M := by omega
        rw [e1, e2, Nat.add_div_right _ hM]

theorem chunkGo_sum (fuel : Nat) : ∀ q M : Nat, 0 < M → q ≤ fuel →
    (chunkGo fuel q M).sum = q := by
  induction fuel with
  | zero =>
    intro q M _ hq
    interval_cases q
    rfl
  | succ fuel ih =>
    intro q M hM hq
    match q with
    | 0 => rfl
    | q + 1 =>
      show (if q + 1 ≤ M then [q + 1] else M :: chunkGo fuel (q + 1 - M) M).sum = _
      split
      · simp
      · next hgt =>
        rw [List.sum_cons, ih (q + 1 - M) M hM (by omega)]
        omega

/-- Modelled from the spec: `SimpleSplitStrategy.split` of the missing
`src/trader/order_cmd.py`, for an OPEN-offset command.  The full volume is
divided into capped slices, each tagged OPEN. -/
def simpleSplitOpen (V M : Nat) : List SplitOrder :=
  (chunkVolumes V M).map (fun v => ⟨v, Offset.OPEN⟩)

/-- Modelled from the spec: `SimpleSplitStrategy.split` of the missing
`src/trader/order_cmd.py`, for a CLOSE-offset command.  Per spec §4.11:
`today_qty = min(requested_volume, position.today_volume)`,
`yesterday_qty = requested_volume - today_qty`; `today_qty` is split into
capped slices tagged CLOSETODAY, then `yesterday_qty` into capped slices
tagged CLOSE, today-lot slices first. -/
def simpleSplitClose (V T M : Nat) : List SplitOrder :=
  (chunkVolumes (min V T) M).map (fun v => ⟨v, Offset.CLOSETODAY⟩)
    ++ (chunkVolumes (V - min V T) M).map (fun v => ⟨v, Offset.CLOSE⟩)

/-- Modelled from the spec: `SimpleSplitStrategy.get_next` of the missing
`src/trader/order_cmd.py`.  Yields the next pending slice, or none when all
slices have been consumed; the remaining slices are the state. -/
def getNext (pending : List SplitOrder) : Option (SplitOrder × List SplitOrder) :=
  match pending with
  | [] => none
  | s :: rest => some (s, rest)

/-- Modelled from the spec: the slice list and retry budget an `OrderCmd` of
the missing `src/trader/order_cmd.py` holds immediately after `split()`.
Per spec §4.11, `split()` seeds `left_retry_times = 2 × slice_count + 1`. -/
structure OrderCmdAfterSplit where
  slices : List SplitOrder
  leftRetryTimes : Nat
  deriving Repr

/-- Modelled from the spec: `OrderCmd.split(None)` for an OPEN command of the
missing `src/trader/order_cmd.py`: runs the simple split strategy and seeds
the retry budget from the resulting slice count. -/
def orderCmdSplitOpen (V M : Nat) : OrderCmdAfterSplit :=
  let l := simpleSplitOpen V M
  ⟨l, 2 * l.length + 1⟩

/-- Modelled from the spec: `OrderCmd.split(position)` for a CLOSE command of
the missing `src/trader/order_cmd.py`, where `T` is the position's
today-volume: runs the simple split strategy and seeds the retry budget from
the resulting slice count. -/
def orderCmdSplitClose (V T M : Nat) : OrderCmdAfterSplit :=
  let l := simpleSplitClose V T M
  ⟨l, 2 * l.length + 1⟩

/-- The number of slices `chunkVolumes` produces is exactly the ceiling of
`q / M` (computed as `(q + M - 1) / M`). -/
theorem chunkVolumes_length (q M : Nat) (hM : 0 < M) :
    (chunkVolumes q M).length = (q + M - 1) / M := by
  rw [chunkVolumes, if_neg (by omega)]
  exact chunkGo_length q q M hM le_rfl

/-- The slices produced by `chunkVolumes` sum back to the quantity that was
split. -/
theorem chunkVolumes_sum (q M : Nat) (hM : 0 < M) :
    (chunkVolumes q M).sum = q := by
  rw [chunkVolumes, if_neg (by omega)]
  exact chunkGo_sum q q M hM le_rfl

/-- C3: For every CLOSE-offset order command with requested volume `V`,
per-order cap `M`, and a position snapshot whose today-volume is `T`, `split`
produces `ceil(min(V,T)/M)` slices tagged CLOSETODAY followed by
`ceil((V-min(V,T))/M)` slices tagged CLOSE, and `get_next` yields all
today-lot slices before any yesterday-lot slice and returns no further slice
after the last one. -/
theorem close_split_today_before_yesterday (V T M : Nat) (hM : 0 < M) :
    (simpleSplitClose V T M).length
        = (min V T + M - 1) / M + (V - min V T + M - 1) / M
    ∧ (∀ s ∈ (simpleSplitClose V T M).take ((min V T + M - 1) / M),
        s.offset = Offset.CLOSETODAY)
    ∧ (∀ s ∈ (simpleSplitClose V T M).drop ((min V T + M - 1) / M),
        s.offset = Offset.CLOSE)
    ∧ ∀ n, (simpleSplitClose V T M).length ≤ n →
        getNext ((simpleSplitClose V T M).drop n) = none := by
  have hlen1 : ((chunkVolumes (min V T) M).map
      (fun v => SplitOrder.mk v Offset.CLOSETODAY)).length
        = (min V T + M - 1) / M := by
    simp [chunkVolumes_length _ _ hM]
  refine ⟨?_, ?_, ?_, ?_⟩
  · simp [simpleSplitClose, chunkVolumes_length _ _ hM]
  · rw [simpleSplitClose, List.take_left' hlen1]
    intro s hs
    obtain ⟨v, _, hv⟩ := List.mem_map.mp hs
    exact hv ▸ rfl
  · rw [simpleSplitClose, List.drop_left' hlen1]
    intro s hs
    obtain ⟨v, _, hv⟩ := List.mem_map.mp hs
    exact hv ▸ rfl
  · intro n hn
    rw [List.drop_eq_nil_of_le hn]
    rfl

/-- Witness for C3 at the instance of the claim: `V = 80`, `T = 50`,
`M = 10` gives 5 CLOSETODAY slices then 3 CLOSE slices (8 total), and
`get_next` returns no further slice after the eighth. -/
theorem close_split_today_before_yesterday_witness :
    (simpleSplitClose 80 50 10).length = 8
    ∧ (∀ s ∈ (simpleSplitClose 80 50 10).take 5, s.offset = Offset.CLOSETODAY)
    ∧ (∀ s ∈ (simpleSplitClose 80 50 10).drop 5, s.offset = Offset.CLOSE)
    ∧ getNext ((simpleSplitClose 80 50 10).drop 8) = none := by
  have h := close_split_today_before_yesterday 80 50 10 (by decide)
  have e5 : (min 80 50 + 10 - 1) / 10 = 5 := by decide
  have e3 : (80 - min 80 50 + 10 - 1) / 10 = 3 := by decide
  rw [e5, e3] at h
  exact ⟨h.1, h.2.1, h.2.2.1, h.2.2.2 8 (by rw [h.1])⟩

/-- C4: immediately after `split()` the command's internal retry budget
`_left_retry_times` equals exactly `2 × N + 1` where `N` is the number of
slices `split()` produced; moreover `N` equals the capped-ceiling slice
count, so the budget is determined by volume, today-volume and cap. -/
theorem split_seeds_retry_budget (V T M : Nat) (hM : 0 < M) :
    (orderCmdSplitOpen V M).leftRetryTimes
        = 2 * (orderCmdSplitOpen V M).slices.length + 1
    ∧ (orderCmdSplitClose V T M).leftRetryTimes
        = 2 * (orderCmdSplitClose V T M).slices.length + 1
    ∧ (orderCmdSplitOpen V M).leftRetryTimes = 2 * ((V + M - 1) / M) + 1
    ∧ (orderCmdSplitClose V T M).leftRetryTimes
        = 2 * ((min V T + M - 1) / M + (V - min V T + M - 1) / M) + 1 := by
  refine ⟨rfl, rfl, ?_, ?_⟩
  · simp [orderCmdSplitOpen, simpleSplitOpen, chunkVolumes_length _ _ hM]
  · simp [orderCmdSplitClose, simpleSplitClose, chunkVolumes_length _ _ hM]

/-- Witness for C4 at the instances named by the claim: `N = 1` (open 10
with cap 10, budget 3), `N = 10` (open 100 with cap 10, budget 21) and
`N = 8` (close 80 against today-volume 50 with cap 10, budget 17). -/
theorem split_seeds_retry_budget_witness :
    ((orderCmdSplitOpen 10 10).slices.length = 1
      ∧ (orderCmdSplitOpen 10 10).leftRetryTimes = 2 * 1 + 1)
    ∧ ((orderCmdSplitOpen 100 10).slices.length = 10
      ∧ (orderCmdSplitOpen 100 10).leftRetryTimes = 2 * 10 + 1)
    ∧ ((orderCmdSplitClose 80 50 10).slices.length = 8
      ∧ (orderCmdSplitClose 80 50 10).leftRetryTimes = 2 * 8 + 1) := by
  have h1 := (split_seeds_retry_budget 10 0 10 (by decide)).2.2.1
  have h2 := (split_seeds_retry_budget 100 0 10 (by decide)).2.2.1
  have h3 := (split_seeds_retry_budget 80 50 10 (by decide)).2.2.2
  refine ⟨⟨by decide, ?_⟩, ⟨by decide, ?_⟩, ⟨by decide, ?_⟩⟩
  · rw [h1]
  · rw [h2]
  · rw [h3]; decide

/-! ## Backoff strategy (claim C9)

Embedding of `BackoffStrategy` from `src/utils/ipc/utils.py` (lines 22-55).
Python float delays are modelled as rationals; the operations involved
(multiplication, `min`) satisfy the stated properties independently of
floating-point rounding, and the concrete inputs used in witnesses are exactly
representable in binary floating point. -/

/-- State of a `BackoffStrategy` instance: the three constructor parameters
plus the mutable `_current_delay`. -/
structure BackoffStrategy where
  initial_delay : ℚ
  max_delay : ℚ
  multiplier : ℚ
  current_delay : ℚ
  deriving DecidableEq, Repr

/-- `BackoffStrategy.__init__`: `_current_delay` starts at `initial_delay`
(utils.py lines 39-45). -/
def mkBackoff (initial_delay max_delay multiplier : ℚ) : BackoffStrategy :=
  ⟨initial_delay, max_delay, multiplier, initial_delay⟩

/-- `BackoffStrategy.get_delay` (utils.py lines 47-51): returns the current
delay, then advances the internal state to
`min(_current_delay * multiplier, max_delay)`. -/
def get_delay (b : BackoffStrategy) : ℚ × BackoffStrategy :=
  (b.current_delay,
    { b with current_delay := min (b.current_delay * b.multiplier) b.max_delay })

/-- `BackoffStrategy.reset` (utils.py lines 53-55): restores `_current_delay`
to `initial_delay`. -/
def BackoffStrategy.reset (b : BackoffStrategy) : BackoffStrategy :=
  { b with current_delay := b.initial_delay }

/-- The state after `n` calls to `get_delay`. -/
def backoffStateAfter (b : BackoffStrategy) : Nat → BackoffStrategy
  | 0 => b
  | n + 1 => (get_delay (backoffStateAfter b n)).2

/-- The value returned by the `(n+1)`-th call to `get_delay` (0-indexed). -/
def returnedDelay (b : BackoffStrategy) (n : Nat) : ℚ :=
  (get_delay (backoffStateAfter b n)).1

theorem backoffStateAfter_params (b : BackoffStrategy) (n : Nat) :
    (backoffStateAfter b n).initial_delay = b.initial_delay
    ∧ (backoffStateAfter b n).max_delay = b.max_delay
    ∧ (backoffStateAfter b n).multiplier = b.multiplier := by
  induction n with
  | zero => exact ⟨rfl, rfl, rfl⟩
  | succ n ih => exact ⟨ih.1, ih.2.1, ih.2.2⟩

theorem returnedDelay_succ (b : BackoffStrategy) (n : Nat) :
    returnedDelay b (n + 1) = min (returnedDelay b n * b.multiplier) b.max_delay := by
  have h := backoffStateAfter_params b n
  show (backoffStateAfter b (n + 1)).current_delay = _
  show min ((backoffStateAfter b n).current_delay * (backoffStateAfter b n).multiplier)
      (backoffStateAfter b n).max_delay = _
  rw [h.2.1, h.2.2]
  rfl

theorem returnedDelay_nonneg (i m mu : ℚ) (hmu : 1 ≤ mu) (hi : 0 ≤ i)
    (him : i ≤ m) : ∀ n, 0 ≤ returnedDelay (mkBackoff i m mu) n := by
  intro n
  induction n with
  | zero => exact hi
  | succ n ih =>
    rw [returnedDelay_succ]
    exact le_min (mul_nonneg ih (le_trans zero_le_one hmu)) (le_trans hi him)

/-- C9 (amended): the first `get_delay()` after construction or after
`reset()` returns exactly `initial_delay` — even when `initial_delay` exceeds
`max_delay`, since the cap is applied only when advancing the internal state —
and every subsequent `get_delay()` returns
`min(previous returned delay * multiplier, max_delay)`; with
`multiplier ≥ 1` the returned sequence is bounded by
`max(initial_delay, max_delay)` — including when `initial_delay` exceeds
`max_delay` — and it is non-decreasing provided
`0 ≤ initial_delay ≤ max_delay` (when `initial_delay > max_delay` the second
returned delay is capped below the first, so the sequence decreases there). -/
theorem backoff_delay_sequence (i m mu : ℚ) :
    returnedDelay (mkBackoff i m mu) 0 = i
    ∧ (∀ b : BackoffStrategy, b.initial_delay = i →
        (get_delay b.reset).1 = i)
    ∧ (∀ n, returnedDelay (mkBackoff i m mu) (n + 1)
        = min (returnedDelay (mkBackoff i m mu) n * mu) m)
    ∧ (1 ≤ mu → 0 ≤ i → i ≤ m →
        ∀ n, returnedDelay (mkBackoff i m mu) n
          ≤ returnedDelay (mkBackoff i m mu) (n + 1))
    ∧ (1 ≤ mu → ∀ n, returnedDelay (mkBackoff i m mu) n ≤ max i m) := by
  refine ⟨rfl, ?_, ?_, ?_, ?_⟩
  · intro b hb
    show b.reset.current_delay = i
    rw [show b.reset.current_delay = b.initial_delay from rfl, hb]
  · intro n
    exact returnedDelay_succ (mkBackoff i m mu) n
  · intro hmu hi him n
    match n with
    | 0 =>
      rw [returnedDelay_succ]
      exact le_min (le_mul_of_one_le_right hi hmu) him
    | n + 1 =>
      rw [returnedDelay_succ (mkBackoff i m mu) (n + 1)]
      refine le_min (le_mul_of_one_le_right ?_ hmu) ?_
      · exact returnedDelay_nonneg i m mu hmu hi him (n + 1)
      · rw [returnedDelay_succ]
        exact min_le_right _ _
  · intro hmu n
    match n with
    | 0 => exact le_max_left i m
    | n + 1 =>
      rw [returnedDelay_succ]
      exact le_trans (min_le_right _ _) (le_max_right i m)

/-- Witness for C9: at `initial_delay = 1/2`, `max_delay = 15`,
`multiplier = 3/2` (the constructor defaults), the claim's hypotheses hold
and the first two returned delays are `1/2` and `3/4`, non-decreasing and
bounded. -/
theorem backoff_delay_sequence_witness :
    returnedDelay (mkBackoff (1/2) 15 (3/2)) 0 = 1/2
    ∧ (1 : ℚ) ≤ 3/2 ∧ (0 : ℚ) ≤ 1/2 ∧ (1/2 : ℚ) ≤ 15
    ∧ returnedDelay (mkBackoff (1/2) 15 (3/2)) 0
        ≤ returnedDelay (mkBackoff (1/2) 15 (3/2)) 1
    ∧ returnedDelay (mkBackoff (1/2) 15 (3/2)) 1 ≤ max (1/2 : ℚ) 15
    ∧ returnedDelay (mkBackoff 20 15 (3/2)) 1 ≤ max (20 : ℚ) 15 := by
  have h := backoff_delay_sequence (1/2 : ℚ) 15 (3/2)
  have h20 := backoff_delay_sequence (20 : ℚ) 15 (3/2)
  exact ⟨h.1, by norm_num, by norm_num, by norm_num,
    h.2.2.2.1 (by norm_num) (by norm_num) (by norm_num) 0,
    h.2.2.2.2 (by norm_num) 1,
    h20.2.2.2.2 (by norm_num) 1⟩

/-- Counterexample for C9 as stated: with `initial_delay = 20` exceeding
`max_delay = 15` and `multiplier = 3/2 ≥ 1`, the first returned delay is 20
and the second is `min(20 * 3/2, 15) = 15 < 20`, so the returned sequence is
not non-decreasing. -/
theorem backoff_not_monotone_counterexample :
    returnedDelay (mkBackoff 20 15 (3/2)) 0 = 20
    ∧ returnedDelay (mkBackoff 20 15 (3/2)) 1 = 15
    ∧ (1 : ℚ) ≤ 3/2
    ∧ ¬ (returnedDelay (mkBackoff 20 15 (3/2)) 0
          ≤ returnedDelay (mkBackoff 20 15 (3/2)) 1) := by
  have e1 : returnedDelay (mkBackoff 20 15 (3/2)) 1 = 15 := by
    rw [returnedDelay_succ]
    show min ((20 : ℚ) * (3/2)) 15 = 15
    rw [min_eq_right (by norm_num)]
  exact ⟨rfl, e1, by norm_num, by rw [e1]; norm_num [returnedDelay,
    backoffStateAfter, get_delay, mkBackoff]⟩

/-! ## WebSocket manager (claim C10)

Embedding of `WebSocketManager.disconnect` from
`src/api/websocket_manager.py` (lines 40-46).  WebSockets are identified by
natural numbers; the two Python sets become finite sets.  `set.discard`
removes an element if present and never raises, so the embedded operation is
total. -/

/-- The two connection sets of a `WebSocketManager`. -/
structure WebSocketManager where
  active_connections : Finset ℕ
  log_subscribers : Finset ℕ
  deriving DecidableEq

/-- `WebSocketManager.disconnect` (websocket_manager.py lines 40-46):
`active_connections.discard(websocket)`, then, if the socket is a log
subscriber, `log_subscribers.discard(websocket)` (the membership test only
gates a log line; `discard` of an absent element is itself a no-op). -/
def disconnect (m : WebSocketManager) (w : ℕ) : WebSocketManager :=
  { active_connections := m.active_connections.erase w,
    log_subscribers :=
      if w ∈ m.log_subscribers then m.log_subscribers.erase w
      else m.log_subscribers }

/-- C10: `disconnect` is idempotent: disconnecting a socket absent from both
sets leaves the manager unchanged (and raises no error, the operation being
total), and disconnecting the same socket twice equals disconnecting it
once. -/
theorem disconnect_idempotent (m : WebSocketManager) (w : ℕ)
    (habs : w ∉ m.active_connections ∧ w ∉ m.log_subscribers) :
    disconnect m w = m ∧
    ∀ (m' : WebSocketManager) (u : ℕ),
      disconnect (disconnect m' u) u = disconnect m' u := by
  constructor
  · show WebSocketManager.mk _ _ = m
    rw [Finset.erase_eq_self.mpr habs.1, if_neg habs.2]
  · intro m' u
    have hnot : u ∉ (disconnect m' u).log_subscribers := by
      show u ∉ (if u ∈ m'.log_subscribers
        then m'.log_subscribers.erase u else m'.log_subscribers)
      split
      · exact Finset.not_mem_erase u _
      · next h => exact h
    show WebSocketManager.mk _ _ = disconnect m' u
    rw [if_neg hnot]
    have hact : (disconnect m' u).active_connections.erase u
        = (disconnect m' u).active_connections := by
      show (m'.active_connections.erase u).erase u = m'.active_connections.erase u
      exact Finset.erase_idem
    rw [hact]

/-- Witness for C10 at a concrete manager: socket 5 is in neither set of
`⟨{1, 2}, {1}⟩`, so disconnecting it changes nothing, and a double
disconnect of socket 1 equals a single one. -/
theorem disconnect_idempotent_witness :
    disconnect ⟨{1, 2}, {1}⟩ 5 = ⟨{1, 2}, {1}⟩
    ∧ disconnect (disconnect ⟨{1, 2}, {1}⟩ 1) 1 = disconnect ⟨{1, 2}, {1}⟩ 1 := by
  have h := disconnect_idempotent ⟨{1, 2}, {1}⟩ 5 (by decide)
  exact ⟨h.1, h.2 ⟨{1, 2}, {1}⟩ 1⟩

/-! ## Alarm statistics (claim C6)

Embedding of `get_alarm_stats` from `src/api/routes/alarm.py` (lines 49-92).
Timestamps are seconds since the epoch (`Int`); the calendar date attached to
`now` by `strftime("%Y-%m-%d")` is modelled as the day index `now / 86400`
(a fixed time zone, which is all the route uses).  The route counts
`alarm_date == today` for the daily total but filters only on `created_at`
for the last-hour and last-five-minutes counts — without any date filter. -/

/-- An `AlarmPo` row as the statistics route reads it: the `alarm_date`
calendar-day stamp and the `created_at` timestamp. -/
structure AlarmPo where
  alarm_date : Int
  created_at : Int
  deriving DecidableEq, Repr

/-- `get_alarm_stats` (alarm.py lines 56-84): `today_count` filters
`alarm_date == today`; `last_hour_count` filters `created_at >= now - 1h`;
`last_five_minutes_count` filters `created_at >= now - 5min`.  Returns
`(today_total, last_hour, last_five_minutes)`. -/
def get_alarm_stats (snapshot : List AlarmPo) (now : Int) : Nat × Nat × Nat :=
  let today := now / 86400
  let one_hour_ago := now - 3600
  let five_minutes_ago := now - 300
  ((snapshot.filter (fun a => a.alarm_date == today)).length,
   (snapshot.filter (fun a => one_hour_ago ≤ a.created_at)).length,
   (snapshot.filter (fun a => five_minutes_ago ≤ a.created_at)).length)

theorem filter_length_mono {α : Type} (l : List α) (p q : α → Bool)
    (h : ∀ a ∈ l, p a = true → q a = true) :
    (l.filter p).length ≤ (l.filter q).length := by
  induction l with
  | nil => exact le_refl 0
  | cons a t ih =>
    have ht : ∀ b ∈ t, p b = true → q b = true :=
      fun b hb => h b (List.mem_cons_of_mem a hb)
    by_cases hp : p a = true
    · rw [List.filter_cons_of_pos hp, List.filter_cons_of_pos (h a (by simp) hp)]
      simpa using ih ht
    · rw [List.filter_cons_of_neg (by simpa using hp)]
      by_cases hq : q a = true
      · rw [List.filter_cons_of_pos hq]
        exact le_trans (ih ht) (by simp)
      · rw [List.filter_cons_of_neg (by simpa using hq)]
        exact ih ht

/-- C6 (amended): for any fixed snapshot — unconditionally — the today-total
equals the number of alarms whose `alarm_date` equals the current calendar
date, and the last-hour count is at least the last-5-minutes count; the
today-total dominates the last-hour count only under the additional
assumption that every alarm created within the last hour carries today's
date (the route places no date filter on the last-hour count, so an alarm
created recently but dated to the previous day breaks the inequality). -/
theorem alarm_stats_consistency (snapshot : List AlarmPo) (now : Int) :
    (get_alarm_stats snapshot now).1
      = (snapshot.filter (fun a => a.alarm_date == now / 86400)).length
    ∧ (get_alarm_stats snapshot now).2.2 ≤ (get_alarm_stats snapshot now).2.1
    ∧ ((∀ a ∈ snapshot, now - 3600 ≤ a.created_at →
          a.alarm_date = now / 86400) →
        (get_alarm_stats snapshot now).2.1 ≤ (get_alarm_stats snapshot now).1) := by
  refine ⟨rfl, ?_, ?_⟩
  · exact filter_length_mono snapshot _ _
      (fun a _ hp => by simp only [decide_eq_true_eq] at hp ⊢; omega)
  · intro hdate
    exact filter_length_mono snapshot _ _
      (fun a ha hp => by
        simp only [decide_eq_true_eq] at hp
        simpa using hdate a ha hp)

/-- Witness for C6: a snapshot where all three counts are consistent — one
alarm created 100 seconds before `now` and dated today, one dated yesterday
and created long ago. -/
theorem alarm_stats_consistency_witness :
    get_alarm_stats [⟨1, 86500⟩, ⟨0, 4000⟩] 86600 = (1, 1, 1)
    ∧ (get_alarm_stats [⟨1, 86500⟩, ⟨0, 4000⟩] 86600).2.1
        ≤ (get_alarm_stats [⟨1, 86500⟩, ⟨0, 4000⟩] 86600).1 := by
  have h := alarm_stats_consistency [⟨1, 86500⟩, ⟨0, 4000⟩] 86600
  exact ⟨by decide, h.2.2 (by decide)⟩

/-- Counterexample for C6 as stated: an alarm created 150 seconds before
`now` but dated to the previous day (alarm raised just before midnight,
statistics queried just after).  The last-hour count is 1 while the
today-total is 0, refuting `today_total ≥ last_hour`. -/
theorem alarm_stats_counterexample :
    get_alarm_stats [⟨0, 86300⟩] 86450 = (0, 1, 1)
    ∧ ¬ ((get_alarm_stats [⟨0, 86300⟩] 86450).2.1
          ≤ (get_alarm_stats [⟨0, 86300⟩] 86450).1) := by
  exact ⟨by decide, by decide⟩

/-! ## Outbound alert notifier (claim C7)

Embedding of `send_wechat` from `src/utils/wecomm.py` (lines 12-17).  The
behaviour of the external HTTP relay is the input; the function's own control
flow is translated directly: `requests.post` raising models a connection
failure, `rsp.json()` raising models a non-JSON body, and indexing a JSON
body without an `errcode` key raises `KeyError`.  The result is `Except`:
`.error` is an exception escaping to the caller, `.ok logged` a normal
return recording whether the failure log line was emitted. -/

/-- What `rsp.json()` finds in the relay's response body. -/
inductive HttpResponseBody where
  | notJson
  | jsonWithoutErrcode
  | jsonErrcode (code : Int)
  deriving DecidableEq, Repr

/-- Outcome of the `requests.post` call itself. -/
inductive HttpOutcome where
  | connectionError
  | response (status : Nat) (body : HttpResponseBody)
  deriving DecidableEq, Repr

/-- `send_wechat` (wecomm.py lines 12-17): posts the message; then
`if rsp.status_code != 200 or rsp.json()["errcode"] != 0:` logs a failure.
The `or` short-circuits, so a non-200 status never parses the body; with a
200 status the body is parsed (raising on non-JSON) and `errcode` is indexed
(raising `KeyError` when absent).  Nothing is caught. -/
def send_wechat : HttpOutcome → Except String Bool
  | .connectionError => .error "requests.RequestException"
  | .response status body =>
    if status ≠ 200 then .ok true
    else
      match body with
      | .notJson => .error "JSONDecodeError"
      | .jsonWithoutErrcode => .error "KeyError"
      | .jsonErrcode code => .ok (code != 0)

/-- C7 (amended): `send_wechat` treats a non-200 HTTP status, or a non-zero
`errcode` in a JSON response carrying one, as a logged failure without
raising; but it raises to its caller on a connection failure, on a 200
response with a non-JSON body, and on a 200 JSON body lacking the `errcode`
field. -/
theorem send_wechat_error_handling :
    (∀ (status : Nat) (body : HttpResponseBody), status ≠ 200 →
        send_wechat (.response status body) = .ok true)
    ∧ (∀ code : Int, code ≠ 0 →
        send_wechat (.response 200 (.jsonErrcode code)) = .ok true)
    ∧ send_wechat (.response 200 (.jsonErrcode 0)) = .ok false
    ∧ send_wechat .connectionError = .error "requests.RequestException"
    ∧ send_wechat (.response 200 .notJson) = .error "JSONDecodeError"
    ∧ send_wechat (.response 200 .jsonWithoutErrcode) = .error "KeyError" := by
  refine ⟨?_, ?_, rfl, rfl, rfl, rfl⟩
  · intro status body h
    simp [send_wechat, h]
  · intro code h
    simp [send_wechat, h]

/-- Witness for C7 at concrete relay behaviours: HTTP 500 and a JSON
`errcode` of 1 both resolve as logged failures without raising. -/
theorem send_wechat_error_handling_witness :
    ((500 : Nat) ≠ 200
      ∧ send_wechat (.response 500 .notJson) = .ok true)
    ∧ ((1 : Int) ≠ 0
      ∧ send_wechat (.response 200 (.jsonErrcode 1)) = .ok true) :=
  ⟨⟨by decide, send_wechat_error_handling.1 500 .notJson (by decide)⟩,
   ⟨by decide, send_wechat_error_handling.2.1 1 (by decide)⟩⟩

/-- Counterexample for C7 as stated: on a connection failure `send_wechat`
raises to its caller (the `requests.post` exception is not caught), refuting
"never raises an exception to its caller". -/
theorem send_wechat_raises_counterexample :
    send_wechat HttpOutcome.connectionError
      = Except.error "requests.RequestException"
    ∧ ∀ b : Bool, send_wechat HttpOutcome.connectionError ≠ Except.ok b := by
  exact ⟨rfl, fun b h => Except.noConfusion h⟩

/-! ## Symbol formatting (claim C8)

Embedding of `TqGateway._format_symbol` from `src/adapters/tq_gateway.py`
(lines 624-644) and the exchange map from `_init_exchange_map` (lines
61-70). -/

/-- The keys of `self.exchange_map` (tq_gateway.py lines 61-70). -/
def exchangeCodes : List String := ["SHFE", "DCE", "CZCE", "CFFEX", "INE", "GFEX"]

/-- Python `str.split(sep)` for a single-character separator, over the
character list of the string: occurrences of the separator delimit fields,
adjacent separators producing empty fields, as in Python. -/
def splitOnChar (c : Char) : List Char → List (List Char)
  | [] => [[]]
  | a :: t =>
    match splitOnChar c t with
    | [] => [[a]]
    | h :: r => if a = c then [] :: h :: r else (a :: h) :: r

/-- Python `symbol.split(".")`. -/
def pySplit (s : String) (c : Char) : List String :=
  (splitOnChar c s.data).map String.mk

/-- Python `str.upper()`; the symbols this adapter handles are ASCII, where
`Char.toUpper` agrees with Python's Unicode upper-casing. -/
def pyUpper (s : String) : String :=
  String.mk (s.data.map Char.toUpper)

/-- `TqGateway._format_symbol` (tq_gateway.py lines 624-644): empty input
yields `None`; a dotted input is split on `"."` and handled only when it has
exactly two parts — returned verbatim when the first part upper-cases to a
known exchange, rewritten to `EXCHANGE.symbol` when the second part does,
`None` otherwise (including more than two parts); a dot-free input is
returned unchanged. -/
def format_symbol (symbol : String) : Option String :=
  if symbol = "" then none
  else if symbol.data.contains '.' then
    match pySplit symbol '.' with
    | [p0, p1] =>
      if pyUpper p0 ∈ exchangeCodes then some symbol
      else if pyUpper p1 ∈ exchangeCodes then some (pyUpper p1 ++ "." ++ p0)
      else none
    | _ => none
  else some symbol

theorem contains_dot_ne_empty (s : String) (h : s.data.contains '.' = true) :
    s ≠ "" := by
  intro he
  subst he
  exact absurd h (by decide)

theorem format_symbol_split_pair (s p0 p1 : String)
    (hdot : s.data.contains '.' = true) (hsplit : pySplit s '.' = [p0, p1]) :
    format_symbol s =
      (if pyUpper p0 ∈ exchangeCodes then some s
       else if pyUpper p1 ∈ exchangeCodes then some (pyUpper p1 ++ "." ++ p0)
       else none) := by
  rw [format_symbol, if_neg (contains_dot_ne_empty s hdot), if_pos hdot, hsplit]

/-- C8 (amended): for a dotted input, `_format_symbol` returns a value only
when the symbol has exactly two dot-separated parts and at least one part
upper-cases to a known exchange code; more than two parts, or no matching
part, yields `None`; a dot-free symbol is passed through unchanged — but so
is a two-part symbol whose first part already upper-cases to a known
exchange, which is returned verbatim (with its original casing); only the
`SYMBOL.EXCHANGE` form is rewritten to `EXCHANGE.SYMBOL`. -/
theorem format_symbol_spec :
    (∀ s p0 p1 : String, s.data.contains '.' = true → pySplit s '.' = [p0, p1] →
      format_symbol s =
        (if pyUpper p0 ∈ exchangeCodes then some s
         else if pyUpper p1 ∈ exchangeCodes then some (pyUpper p1 ++ "." ++ p0)
         else none))
    ∧ (∀ s : String, s.data.contains '.' = true → (pySplit s '.').length ≠ 2 →
        format_symbol s = none)
    ∧ (∀ s : String, s ≠ "" → s.data.contains '.' = false →
        format_symbol s = some s)
    ∧ (∀ s r : String, s.data.contains '.' = true → format_symbol s = some r →
        ∃ p0 p1, pySplit s '.' = [p0, p1]
          ∧ (pyUpper p0 ∈ exchangeCodes ∨ pyUpper p1 ∈ exchangeCodes)) := by
  refine ⟨format_symbol_split_pair, ?_, ?_, ?_⟩
  · intro s hdot hlen
    rw [format_symbol, if_neg (contains_dot_ne_empty s hdot), if_pos hdot]
    cases hp : pySplit s '.' with
    | nil => rfl
    | cons a t =>
      cases t with
      | nil => rfl
      | cons b t2 =>
        cases t2 with
        | nil => rw [hp] at hlen; exact absurd rfl hlen
        | cons c t3 => rfl
  · intro s hne hdot
    rw [format_symbol, if_neg hne,
      if_neg (fun h => by rw [hdot] at h; exact Bool.noConfusion h)]
  · intro s r hdot hsome
    cases hp : pySplit s '.' with
    | nil =>
      rw [format_symbol, if_neg (contains_dot_ne_empty s hdot), if_pos hdot,
        hp] at hsome
      exact Option.noConfusion hsome
    | cons a t =>
      cases t with
      | nil =>
        rw [format_symbol, if_neg (contains_dot_ne_empty s hdot), if_pos hdot,
          hp] at hsome
        exact Option.noConfusion hsome
      | cons b t2 =>
        cases t2 with
        | nil =>
          have heq := format_symbol_split_pair s a b hdot hp
          rw [heq] at hsome
          refine ⟨a, b, rfl, ?_⟩
          by_cases h0 : pyUpper a ∈ exchangeCodes
          · exact Or.inl h0
          · by_cases h1 : pyUpper b ∈ exchangeCodes
            · exact Or.inr h1
            · rw [if_neg h0, if_neg h1] at hsome
              exact Option.noConfusion hsome
        | cons c t3 =>
          rw [format_symbol, if_neg (contains_dot_ne_empty s hdot),
            if_pos hdot, hp] at hsome
          exact Option.noConfusion hsome

/-- Witness for C8: the `SYMBOL.EXCHANGE` form `cu2401.shfe` is rewritten to
`SHFE.cu2401`; the three-part symbol `a.b.c` yields `None`; the two-part
symbol `foo.bar` matching no exchange yields `None`; the dot-free symbol
`rb2505` passes through unchanged. -/
theorem format_symbol_spec_witness :
    format_symbol "cu2401.shfe" = some "SHFE.cu2401"
    ∧ format_symbol "a.b.c" = none
    ∧ format_symbol "foo.bar" = none
    ∧ format_symbol "rb2505" = some "rb2505" := by
  refine ⟨?_, ?_, ?_, ?_⟩
  · rw [format_symbol_spec.1 "cu2401.shfe" "cu2401" "shfe" (by decide) (by decide)]
    decide
  · exact format_symbol_spec.2.1 "a.b.c" (by decide) (by decide)
  · rw [format_symbol_spec.1 "foo.bar" "foo" "bar" (by decide) (by decide)]
    decide
  · exact format_symbol_spec.2.2.1 "rb2505" (by decide) (by decide)


/-- Counterexample for C8 as stated: `SHFE.cu2401` contains a dot yet is
passed through unchanged (the first branch returns the input verbatim), so
it is not true that only dot-free symbols are passed through unchanged; a
lower-case `shfe.cu2401` is likewise returned verbatim, i.e. not normalized
to an upper-case exchange code. -/
theorem format_symbol_counterexample :
    format_symbol "SHFE.cu2401" = some "SHFE.cu2401"
    ∧ "SHFE.cu2401".data.contains '.' = true
    ∧ format_symbol "shfe.cu2401" = some "shfe.cu2401" := by
  exact ⟨by decide, by decide, by decide⟩

/-! ## Log watcher (claim C5)

Embedding of `LogWatcher._on_file_modified` (log_watcher.py lines 89-108),
`LogWatcher._read_new_lines` (lines 110-140) and `LogWatcher._parse_log_line`
(lines 142-161) from `src/services/log_watcher.py`.  The file on disk is a
byte sequence (`List Nat`).  The Python code opens it in text mode
(`encoding='utf-8', errors='replace'`) and calls `f.seek(start_pos)` with the
stored integer: CPython's text-mode seek positions the underlying binary
stream at that *byte* offset and resets the decoder, so the read returns the
UTF-8 decoding — with U+FFFD replacing malformed sequences — of the bytes
from `start_pos` to end-of-file.  `file_position` then stores
`start_pos + len(content)`, where `len(content)` counts decoded *characters*;
for multibyte content this undershoots the byte position actually consumed,
and the next seek lands on already-read bytes.  The model keeps exactly this
mixed-unit behaviour: drop `start_pos` bytes, decode, and advance the offset
by the decoded character count.  Path filtering (`.log` suffix, today's
file) selects the single file modelled here.  The regex
`(\d{4}-\d{2}-\d{2} \d{2}:\d{2}:\d{2}\.\d{3}) \| (\w+)\s+\| (.+?):(.+?):(\d+)\s*\| (.+)`,
applied with `re.match`, is implemented below: the fixed-shape timestamp, the
literal separators, greedy `\w+`/`\s+`/`\d+`/`\s*` runs (deterministic
because each is followed by a character class disjoint from its own), and a
left-to-right minimal search for the two lazy `(.+?)` groups.  `\w` and the
stripping of `str.strip()` are modelled on their ASCII subsets, which covers
every character class the log format produces. -/

/-- Python whitespace for `str.strip()` and the regex classes `\s+`/`\s*`
(ASCII subset). -/
def isPySpace (c : Char) : Bool :=
  c = ' ' || c = '\t' || c = '\n' || c = '\r' || c = '\x0b' || c = '\x0c'

/-- Regex `\w` (ASCII subset): letters, digits, underscore. -/
def isWordChar (c : Char) : Bool :=
  c.isAlphanum || c = '_'

/-- Python `str.strip()`: drop leading and trailing whitespace. -/
def pyStrip (l : List Char) : List Char :=
  ((l.dropWhile isPySpace).reverse.dropWhile isPySpace).reverse

/-- Whether a byte is a UTF-8 continuation byte `0x80..0xBF`. -/
def isContinuation (b : Nat) : Bool := 0x80 ≤ b && b ≤ 0xBF

/-- Lower bound of the first continuation byte admitted after lead `b`
(tightened for `0xE0` and `0xF0` to exclude overlong encodings). -/
def contLow (b : Nat) : Nat :=
  if b = 0xE0 then 0xA0 else if b = 0xF0 then 0x90 else 0x80

/-- Upper bound of the first continuation byte admitted after lead `b`
(tightened for `0xED` and `0xF4` to exclude surrogates and values beyond
U+10FFFF). -/
def contHigh (b : Nat) : Nat :=
  if b = 0xED then 0x9F else if b = 0xF4 then 0x8F else 0xBF

/-- UTF-8 decoding with `errors='replace'`, as Python's text-mode reader
performs it: well-formed sequences decode to their code point; a malformed
sequence contributes one U+FFFD for its maximal valid subpart (at least the
one offending byte) and decoding resumes at the byte that broke it.  The
fuel is the remaining byte count — every step consumes at least one byte —
so the recursion is structural and evaluates in the kernel. -/
def utf8ReplaceGo : Nat → List Nat → List Char
  | _, [] => []
  | 0, _ => []
  | fuel + 1, b :: rest =>
    if b < 0x80 then Char.ofNat b :: utf8ReplaceGo fuel rest
    else if 0xC2 ≤ b ∧ b ≤ 0xDF then
      match rest with
      | b2 :: rest2 =>
        if isContinuation b2 then
          Char.ofNat ((b - 0xC0) * 64 + (b2 - 0x80)) :: utf8ReplaceGo fuel rest2
        else Char.ofNat 0xFFFD :: utf8ReplaceGo fuel rest
      | [] => [Char.ofNat 0xFFFD]
    else if 0xE0 ≤ b ∧ b ≤ 0xEF then
      match rest with
      | b2 :: rest2 =>
        if contLow b ≤ b2 ∧ b2 ≤ contHigh b then
          match rest2 with
          | b3 :: rest3 =>
            if isContinuation b3 then
              Char.ofNat ((b - 0xE0) * 4096 + (b2 - 0x80) * 64 + (b3 - 0x80))
                :: utf8ReplaceGo fuel rest3
            else Char.ofNat 0xFFFD :: utf8ReplaceGo fuel rest2
          | [] => [Char.ofNat 0xFFFD]
        else Char.ofNat 0xFFFD :: utf8ReplaceGo fuel rest
      | [] => [Char.ofNat 0xFFFD]
    else if 0xF0 ≤ b ∧ b ≤ 0xF4 then
      match rest with
      | b2 :: rest2 =>
        if contLow b ≤ b2 ∧ b2 ≤ contHigh b then
          match rest2 with
          | b3 :: rest3 =>
            if isContinuation b3 then
              match rest3 with
              | b4 :: rest4 =>
                if isContinuation b4 then
                  Char.ofNat ((b - 0xF0) * 262144 + (b2 - 0x80) * 4096
                      + (b3 - 0x80) * 64 + (b4 - 0x80))
                    :: utf8ReplaceGo fuel rest4
                else Char.ofNat 0xFFFD :: utf8ReplaceGo fuel rest3
              | [] => [Char.ofNat 0xFFFD]
            else Char.ofNat 0xFFFD :: utf8ReplaceGo fuel rest2
          | [] => [Char.ofNat 0xFFFD]
        else Char.ofNat 0xFFFD :: utf8ReplaceGo fuel rest
      | [] => [Char.ofNat 0xFFFD]
    else Char.ofNat 0xFFFD :: utf8ReplaceGo fuel rest

/-- The characters a text-mode read with `errors='replace'` yields for a
byte sequence. -/
def utf8DecodeReplace (bs : List Nat) : List Char :=
  utf8ReplaceGo bs.length bs

/-- On purely single-byte (ASCII) input, replacement decoding is the
byte-to-character identity. -/
theorem utf8ReplaceGo_ascii (fuel : Nat) : ∀ bs : List Nat,
    (∀ b ∈ bs, b < 0x80) → bs.length ≤ fuel →
    utf8ReplaceGo fuel bs = bs.map Char.ofNat := by
  induction fuel with
  | zero =>
    intro bs h hl
    match bs with
    | [] => rfl
    | b :: t =>
      simp only [List.length_cons] at hl
      omega
  | succ fuel ih =>
    intro bs h hl
    match bs with
    | [] => rfl
    | b :: t =>
      have hb : b < 0x80 := h b (List.mem_cons_self b t)
      simp only [utf8ReplaceGo]
      rw [if_pos hb,
        ih t (fun x hx => h x (List.mem_cons_of_mem b hx))
          (by simp only [List.length_cons] at hl; omega)]
      rfl

/-- The result of `_parse_log_line`: the six regex groups (the `raw` key is
attached by `_read_new_lines` after a successful parse). -/
structure ParsedLine where
  timestamp : String
  level : String
  loggerName : String
  funcName : String
  lineNo : Nat
  message : String
  deriving DecidableEq, Repr

/-- `int(...)` on the digit run captured by `(\d+)`. -/
def digitsToNat (ds : List Char) : Nat :=
  ds.foldl (fun n c => n * 10 + (c.toNat - '0'.toNat)) 0

/-- The anchored timestamp group
`\d{4}-\d{2}-\d{2} \d{2}:\d{2}:\d{2}\.\d{3}` followed by the literal
`" | "`; returns the 23 timestamp characters and the remainder after the
separator. -/
def matchTimestamp (cs : List Char) : Option (List Char × List Char) :=
  match cs with
  | y1 :: y2 :: y3 :: y4 :: '-' :: m1 :: m2 :: '-' :: d1 :: d2 :: ' '
      :: h1 :: h2 :: ':' :: n1 :: n2 :: ':' :: s1 :: s2 :: '.'
      :: f1 :: f2 :: f3 :: ' ' :: '|' :: ' ' :: rest =>
    if [y1, y2, y3, y4, m1, m2, d1, d2, h1, h2, n1, n2, s1, s2,
        f1, f2, f3].all Char.isDigit then
      some ([y1, y2, y3, y4, '-', m1, m2, '-', d1, d2, ' ',
        h1, h2, ':', n1, n2, ':', s1, s2, '.', f1, f2, f3], rest)
    else none
  | _ => none

/-- The suffix `(\d+)\s*\| (.+)` of the pattern: a non-empty greedy digit
run, optional whitespace, the literal `"| "`, and a non-empty message. -/
def matchNumTail (cs : List Char) : Option (Nat × List Char) :=
  let ds := cs.takeWhile Char.isDigit
  if ds.isEmpty then none
  else
    match (cs.dropWhile Char.isDigit).dropWhile isPySpace with
    | '|' :: ' ' :: msg => if msg.isEmpty then none else some (digitsToNat ds, msg)
    | _ => none

/-- The lazy group `(.+?)` closed by a `:` and followed by `matchNumTail`:
the accumulator grows one character at a time, and at each `:` (with a
non-empty group, per `+`) the continuation is tried first — exactly the
regex engine's minimal-first backtracking order. -/
def searchG4 (acc : List Char) : List Char → Option (List Char × Nat × List Char)
  | [] => none
  | c :: tl =>
    if c = ':' && !acc.isEmpty then
      match matchNumTail tl with
      | some (n, msg) => some (acc, n, msg)
      | none => searchG4 (acc ++ [c]) tl
    else searchG4 (acc ++ [c]) tl

/-- The two lazy groups `(.+?):(.+?):` of the pattern: the first group is
closed at the earliest `:` from which the rest of the pattern matches. -/
def searchG34 (acc : List Char) :
    List Char → Option (List Char × List Char × Nat × List Char)
  | [] => none
  | c :: tl =>
    if c = ':' && !acc.isEmpty then
      match searchG4 [] tl with
      | some (g4, n, msg) => some (acc, g4, n, msg)
      | none => searchG34 (acc ++ [c]) tl
    else searchG34 (acc ++ [c]) tl

/-- `LogWatcher._parse_log_line` (log_watcher.py lines 142-161): `re.match`
of the fixed log pattern; a non-matching line yields `None`. -/
def parse_log_line (line : List Char) : Option ParsedLine :=
  match matchTimestamp line with
  | none => none
  | some (ts, rest) =>
    let lvl := rest.takeWhile isWordChar
    if lvl.isEmpty then none
    else
      let rest2 := rest.dropWhile isWordChar
      if (rest2.takeWhile isPySpace).isEmpty then none
      else
        match rest2.dropWhile isPySpace with
        | '|' :: ' ' :: rest3 =>
          match searchG34 [] rest3 with
          | some (g3, g4, n, msg) =>
            some ⟨String.mk ts, String.mk lvl, String.mk g3,
              String.mk g4, n, String.mk msg⟩
          | none => none
        | _ => none

/-- The per-line step of `_read_new_lines`: strip the line, skip it when
blank, otherwise parse it and attach the stripped line as `raw`. -/
def entryFn (l : List Char) : Option (ParsedLine × String) :=
  if (pyStrip l).isEmpty then none
  else (parse_log_line (pyStrip l)).map (fun p => (p, String.mk (pyStrip l)))

/-- `LogWatcher._read_new_lines` (log_watcher.py lines 110-140): seek the
underlying stream to byte offset `start_pos`, read and UTF-8-decode (with
replacement) to end of file, split the decoded characters on newlines, strip
each line, skip blank lines, parse the rest (attaching the stripped line as
`raw`), and record `start_pos + len(content)` — a *character* count — as the
new offset (the early return for empty content leaves the offset untouched,
which equals `start_pos` anyway).  Returns the parsed entries and the new
recorded offset. -/
def read_new_lines (file : List Nat) (startPos : Nat) :
    List (ParsedLine × String) × Nat :=
  let content := utf8DecodeReplace (file.drop startPos)
  if content.isEmpty then ([], startPos)
  else ((splitOnChar '\n' content).filterMap entryFn, startPos + content.length)

/-- `LogWatcher._on_file_modified` (log_watcher.py lines 89-108) for a
modification event on today's log file: read from the recorded offset and
invoke the callback exactly when at least one entry parsed.  Returns
(callback invoked, entries passed to the callback, new recorded offset). -/
def on_file_modified (file : List Nat) (pos : Nat) :
    Bool × List (ParsedLine × String) × Nat :=
  let r := read_new_lines file pos
  (!r.1.isEmpty, r.1, r.2)

theorem entryFn_ne_none_iff (l : List Char) :
    entryFn l ≠ none
    ↔ ((pyStrip l).isEmpty = false ∧ (parse_log_line (pyStrip l)).isSome = true) := by
  by_cases he : (pyStrip l).isEmpty
  · simp [entryFn, he]
  · cases hp : parse_log_line (pyStrip l) with
    | none => simp [entryFn, he, hp]
    | some p => simp [entryFn, he, hp]

/-- The entry batch of `_read_new_lines` is the per-line step mapped over the
newline-split decoded content in both branches of the empty-content test
(empty content splits into one blank line, which the per-line step skips). -/
theorem read_new_lines_fst (file : List Nat) (pos : Nat) :
    (read_new_lines file pos).1
      = (splitOnChar '\n' (utf8DecodeReplace (file.drop pos))).filterMap entryFn := by
  rw [read_new_lines]
  by_cases hc : (utf8DecodeReplace (file.drop pos)).isEmpty
  · rw [if_pos hc, List.isEmpty_iff.mp hc]
    rfl
  · rw [if_neg hc]

/-- The recorded offset always advances by the number of decoded
characters. -/
theorem read_new_lines_snd (file : List Nat) (pos : Nat) :
    (read_new_lines file pos).2
      = pos + (utf8DecodeReplace (file.drop pos)).length := by
  rw [read_new_lines]
  by_cases hc : (utf8DecodeReplace (file.drop pos)).isEmpty
  · rw [if_pos hc, List.isEmpty_iff.mp hc]
    rfl
  · rw [if_neg hc]

/-- C5 (amended): on a modification event for today's log file the watcher
reads from the last recorded offset (a byte position, per the text-mode
seek) to end-of-file, invokes the callback exactly when at least one
non-blank decoded line parsed successfully, and advances the recorded
offset by the number of *characters* it decoded — not by the number of
bytes it read.  When everything read is single-byte content the two counts
agree: the offset lands at the end-of-file byte position, including past an
unterminated partial trailing line, so the next event reads exactly the
bytes appended afterwards — the partial line is consumed (parsed truncated
on its own, its remainder read in isolation later), not re-read.  For
multibyte content the character count undershoots the bytes read, and the
next event re-reads previously seen bytes (see the counterexample). -/
theorem log_watcher_modified_event (file : List Nat) (pos : Nat)
    (hpos : pos ≤ file.length) :
    (on_file_modified file pos).2.2
        = pos + (utf8DecodeReplace (file.drop pos)).length
    ∧ ((on_file_modified file pos).1 = true ↔
        ∃ l ∈ splitOnChar '\n' (utf8DecodeReplace (file.drop pos)),
          (pyStrip l).isEmpty = false ∧ (parse_log_line (pyStrip l)).isSome = true)
    ∧ ((∀ b ∈ file.drop pos, b < 0x80) →
        (on_file_modified file pos).2.2 = file.length
        ∧ ∀ suffix : List Nat,
            (file ++ suffix).drop (on_file_modified file pos).2.2 = suffix
            ∧ (read_new_lines (file ++ suffix) (on_file_modified file pos).2.2).1
                = (read_new_lines suffix 0).1) := by
  refine ⟨read_new_lines_snd file pos, ?_, ?_⟩
  · show (!(read_new_lines file pos).1.isEmpty) = true ↔ _
    rw [Bool.not_eq_true', List.isEmpty_eq_false, Ne, read_new_lines_fst,
      List.filterMap_eq_nil_iff]
    push_neg
    exact exists_congr fun l => and_congr_right fun _ => entryFn_ne_none_iff l
  · intro hascii
    have hdec : utf8DecodeReplace (file.drop pos) = (file.drop pos).map Char.ofNat :=
      utf8ReplaceGo_ascii (file.drop pos).length (file.drop pos) hascii le_rfl
    have hnewpos : (on_file_modified file pos).2.2 = file.length := by
      show (read_new_lines file pos).2 = file.length
      rw [read_new_lines_snd, hdec, List.length_map, List.length_drop]
      omega
    refine ⟨hnewpos, fun suffix => ?_⟩
    have hdrop : (file ++ suffix).drop (on_file_modified file pos).2.2 = suffix := by
      rw [hnewpos]
      exact List.drop_left file suffix
    exact ⟨hdrop,
      by rw [read_new_lines_fst, read_new_lines_fst, hdrop, List.drop_zero]⟩

/-- The bytes an ASCII string occupies on disk. -/
def asciiBytes (s : String) : List Nat :=
  s.data.map Char.toNat

/-- A well-formed log line cut off mid-message: the terminated prefix of
`"... | hello"` after only `"hel"` has been written. -/
def truncatedLine : List Nat :=
  asciiBytes "2024-01-02 03:04:05.678 | INFO | app:run:12 | hel"

/-- Witness for C5 at a concrete file: one complete ASCII log line followed
by a newline; the event reads it, the callback fires, and the offset lands
at the end-of-file byte position, so a subsequent append is read in
isolation. -/
theorem log_watcher_modified_event_witness :
    (0 : Nat) ≤ (asciiBytes "2024-01-02 03:04:05.678 | INFO | app:run:12 | hello\n").length
    ∧ (∀ b ∈ (asciiBytes "2024-01-02 03:04:05.678 | INFO | app:run:12 | hello\n").drop 0,
        b < 0x80)
    ∧ (on_file_modified
          (asciiBytes "2024-01-02 03:04:05.678 | INFO | app:run:12 | hello\n") 0).2.2
        = (asciiBytes "2024-01-02 03:04:05.678 | INFO | app:run:12 | hello\n").length
    ∧ (on_file_modified
          (asciiBytes "2024-01-02 03:04:05.678 | INFO | app:run:12 | hello\n") 0).1
        = true := by
  have h := log_watcher_modified_event
    (asciiBytes "2024-01-02 03:04:05.678 | INFO | app:run:12 | hello\n") 0
    (Nat.zero_le _)
  refine ⟨Nat.zero_le _, by decide, (h.2.2 (by decide)).1, ?_⟩
  exact h.2.1.mpr
    ⟨"2024-01-02 03:04:05.678 | INFO | app:run:12 | hello".data,
      by decide, by decide, by decide⟩

/-- Counterexample for C5 as stated.  (a) A file holding the three UTF-8
bytes `0xE6 0x97 0xA5` of `'日'`: the event reads 3 bytes but records offset
1 — `len(content)` counts decoded characters, not bytes read — and after two
more bytes `"A\n"` are appended, the next event's byte-based seek at offset
1 reads `0x97 0xA5 0x41 0x0A`: it re-reads the two trailing bytes of `'日'`
that were already consumed.  (b) An unterminated partial trailing line is
consumed rather than re-read: the first event on the truncated ASCII line
parses the truncated message `"hel"` and moves the offset past it, and after
the line's remainder `"lo\n"` is appended the next event reads only that
remainder, which parses as nothing — the completed line is never
delivered. -/
theorem log_watcher_offset_counterexample :
    (read_new_lines [0xE6, 0x97, 0xA5] 0).2 = 1
    ∧ ([0xE6, 0x97, 0xA5] : List Nat).length = 3
    ∧ (1 : Nat) ≠ 3
    ∧ ([0xE6, 0x97, 0xA5] ++ asciiBytes "A\n").drop
          (read_new_lines [0xE6, 0x97, 0xA5] 0).2
        = [0x97, 0xA5] ++ asciiBytes "A\n"
    ∧ (read_new_lines truncatedLine 0).2 = truncatedLine.length
    ∧ ((read_new_lines truncatedLine 0).1.map (fun e => e.1.message)) = ["hel"]
    ∧ (read_new_lines (truncatedLine ++ asciiBytes "lo\n") truncatedLine.length).1
        = [] := by
  exact ⟨by decide, by decide, by decide, by decide, by decide, by decide,
    by decide⟩

/-! ## IPC protocol (claim C1)

Embedding of `MessageBody`, `MessageProtocol.encode`/`decode` and
`message_decode_hook` from `src/utils/ipc/protocol.py`.  Python/JSON values
are the inductive universe `PyVal` (null, booleans, integers, strings, raw
byte strings, arrays, objects) — exactly the values the claim ranges over
("JSON-representable data, including fields whose values are raw byte
strings"; non-finite floats, which `ignore_nan=True` serialises as `null`,
lie outside this universe and outside the claim).  The 4-byte length framing
(`struct.pack("!I", ...)` plus `readexactly`) and the JSON text layer
(`simplejson` rendering and re-parsing) are external-library bijections that
compose to the identity on JSON values, so encode/decode are modelled at the
JSON-value level; everything repository-specific is explicit:

* `encode` (protocol.py line 102) serialises with
  `json.dumps(message.to_dict(), ignore_nan=True, default=str)` — the custom
  `MessageEncoder` (lines 64-72), which would emit `{"__bytes__": hex}` for
  bytes, is *not* used (its call on line 101 is commented out).  `simplejson`
  transcodes `bytes` values to `str` with its default `encoding='utf-8'`
  (raising on undecodable bytes), so a byte string reaches the wire as a
  plain JSON string, never as a `__bytes__` tag.
* `decode` (lines 109-136) parses with
  `object_hook=message_decode_hook` (lines 75-79), which replaces any object
  carrying a `"__bytes__"` key by `bytes.fromhex` of that value, bottom-up.

`Option` models both a raised exception and an absent result; duplicate keys
in one object are excluded by the safety predicate because the JSON text
layer (dict construction) would collapse them, keeping the last. -/

mutual
inductive PyVal where
  | null : PyVal
  | boolVal : Bool → PyVal
  | intVal : Int → PyVal
  | strVal : String → PyVal
  | bytesVal : List Nat → PyVal
  | arrVal : PyArr → PyVal
  | objVal : PyObj → PyVal
inductive PyArr where
  | nil : PyArr
  | cons : PyVal → PyArr → PyArr
inductive PyObj where
  | nil : PyObj
  | cons : String → PyVal → PyObj → PyObj
end

/-- `dict[key]` / `dict.get(key)` on an object built from ordered key/value
pairs: a later binding of the same key overwrites an earlier one. -/
def PyObj.lookupLast : PyObj → String → Option PyVal
  | .nil, _ => none
  | .cons k v t, key =>
    match lookupLast t key with
    | some r => some r
    | none => if k == key then some v else none

/-- `key in dict`. -/
def PyObj.hasKey : PyObj → String → Bool
  | .nil, _ => false
  | .cons k _ t, key => k == key || hasKey t key

/-- Whether a UTF-8 byte is a continuation byte `0x80..0xBF`. -/
def isContByte (b : Nat) : Bool := 0x80 ≤ b && b ≤ 0xBF

/-- Strict UTF-8 decoding (as Python's `bytes.decode('utf-8')`): rejects
continuation errors, overlong encodings, surrogates and out-of-range code
points.  The fuel argument is the remaining byte count, so the recursion is
structural and the definition evaluates in the kernel. -/
def utf8DecodeGo : Nat → List Nat → Option (List Char)
  | _, [] => some []
  | 0, _ :: _ => none
  | fuel + 1, b :: rest =>
    if b < 0x80 then
      (utf8DecodeGo fuel rest).map (fun cs => Char.ofNat b :: cs)
    else if 0xC2 ≤ b ∧ b ≤ 0xDF then
      match rest with
      | b2 :: rest2 =>
        if isContByte b2 then
          (utf8DecodeGo fuel rest2).map
            (fun cs => Char.ofNat ((b - 0xC0) * 64 + (b2 - 0x80)) :: cs)
        else none
      | [] => none
    else if 0xE0 ≤ b ∧ b ≤ 0xEF then
      match rest with
      | b2 :: b3 :: rest2 =>
        if isContByte b2 && isContByte b3
            && (decide (b ≠ 0xE0) || decide (0xA0 ≤ b2))
            && (decide (b ≠ 0xED) || decide (b2 ≤ 0x9F)) then
          (utf8DecodeGo fuel rest2).map
            (fun cs => Char.ofNat
              ((b - 0xE0) * 4096 + (b2 - 0x80) * 64 + (b3 - 0x80)) :: cs)
        else none
      | _ => none
    else if 0xF0 ≤ b ∧ b ≤ 0xF4 then
      match rest with
      | b2 :: b3 :: b4 :: rest2 =>
        if isContByte b2 && isContByte b3 && isContByte b4
            && (decide (b ≠ 0xF0) || decide (0x90 ≤ b2))
            && (decide (b ≠ 0xF4) || decide (b2 ≤ 0x8F)) then
          (utf8DecodeGo fuel rest2).map
            (fun cs => Char.ofNat ((b - 0xF0) * 262144 + (b2 - 0x80) * 4096
              + (b3 - 0x80) * 64 + (b4 - 0x80)) :: cs)
        else none
      | _ => none
    else none

def utf8Decode (bs : List Nat) : Option (List Char) :=
  utf8DecodeGo bs.length bs

/-- One hexadecimal digit, as `bytes.fromhex` accepts. -/
def hexDigit (c : Char) : Option Nat :=
  if '0' ≤ c ∧ c ≤ '9' then some (c.toNat - '0'.toNat)
  else if 'a' ≤ c ∧ c ≤ 'f' then some (c.toNat - 'a'.toNat + 10)
  else if 'A' ≤ c ∧ c ≤ 'F' then some (c.toNat - 'A'.toNat + 10)
  else none

/-- `bytes.fromhex`: pairs of hex digits, spaces permitted between pairs,
anything else (odd digit counts, a space inside a pair) rejected. -/
def hexDecode : List Char → Option (List Nat)
  | [] => some []
  | ' ' :: rest => hexDecode rest
  | c1 :: c2 :: rest =>
    match hexDigit c1, hexDigit c2 with
    | some h, some l => (hexDecode rest).map (fun bs => (h * 16 + l) :: bs)
    | _, _ => none
  | _ => none

/-- The `MessageType` enumeration (protocol.py lines 22-29). -/
inductive MsgType where
  | heartbeat
  | request
  | response
  | push
  | error
  deriving DecidableEq, Repr

/-- `MessageType.value`. -/
def MsgType.value : MsgType → String
  | .heartbeat => "heartbeat"
  | .request => "request"
  | .response => "response"
  | .push => "push"
  | .error => "error"

/-- `MessageType(s)`: the enum constructor, `None` standing for the
`ValueError` it raises on an unknown value. -/
def msgTypeOfValue (s : String) : Option MsgType :=
  if s == "heartbeat" then some .heartbeat
  else if s == "request" then some .request
  else if s == "response" then some .response
  else if s == "push" then some .push
  else if s == "error" then some .error
  else none

/-- The `MessageBody` dataclass (protocol.py lines 32-61): message type,
request id, payload, ISO-8601 timestamp string stamped at construction, and
an optional error string. -/
structure MessageBody where
  msg_type : MsgType
  request_id : String
  data : PyVal
  timestamp : String
  error : Option String

/-- `MessageBody.to_dict` (protocol.py lines 42-50). -/
def MessageBody.to_dict (m : MessageBody) : PyVal :=
  .objVal (.cons "msg_type" (.strVal m.msg_type.value)
    (.cons "request_id" (.strVal m.request_id)
      (.cons "data" m.data
        (.cons "timestamp" (.strVal m.timestamp)
          (.cons "error" (match m.error with
            | some e => .strVal e
            | none => .null) .nil)))))

/-- `MessageBody.from_dict` (protocol.py lines 52-61): indexes the four
mandatory fields (a missing one raises `KeyError`, an unknown `msg_type`
raises `ValueError`, both modelled as `none`; the string fields carry the
dataclass's declared `str` type) and `.get`s the optional error. -/
def MessageBody.from_dict (v : PyVal) : Option MessageBody :=
  match v with
  | .objVal o =>
    match o.lookupLast "msg_type", o.lookupLast "request_id",
        o.lookupLast "data", o.lookupLast "timestamp" with
    | some (.strVal mt), some (.strVal rid), some d, some (.strVal ts) =>
      match msgTypeOfValue mt with
      | some m =>
        some ⟨m, rid, d, ts,
          match o.lookupLast "error" with
          | some (.strVal e) => some e
          | _ => none⟩
      | none => none
    | _, _, _, _ => none
  | _ => none

mutual
/-- The value transformation performed by
`json.dumps(..., ignore_nan=True, default=str)` followed by JSON text
rendering and re-parsing: bytes are transcoded to strings via strict UTF-8
(simplejson's default `encoding='utf-8'`; undecodable bytes raise), every
other value in this universe renders as itself. -/
def dumpsVal : PyVal → Option PyVal
  | .null => some .null
  | .boolVal b => some (.boolVal b)
  | .intVal n => some (.intVal n)
  | .strVal s => some (.strVal s)
  | .bytesVal bs => (utf8Decode bs).map (fun cs => .strVal (String.mk cs))
  | .arrVal a => (dumpsArr a).map .arrVal
  | .objVal o => (dumpsObj o).map .objVal
def dumpsArr : PyArr → Option PyArr
  | .nil => some .nil
  | .cons v t =>
    match dumpsVal v, dumpsArr t with
    | some v', some t' => some (.cons v' t')
    | _, _ => none
def dumpsObj : PyObj → Option PyObj
  | .nil => some .nil
  | .cons k v t =>
    match dumpsVal v, dumpsObj t with
    | some v', some t' => some (.cons k v' t')
    | _, _ => none
end

mutual
/-- `message_decode_hook` (protocol.py lines 75-79) as `json.loads` applies
it: bottom-up over every parsed object; an object carrying a `"__bytes__"`
key becomes `bytes.fromhex` of that value (a non-string value there raises
`TypeError`, invalid hex raises `ValueError` — both `none`). -/
def hookVal : PyVal → Option PyVal
  | .null => some .null
  | .boolVal b => some (.boolVal b)
  | .intVal n => some (.intVal n)
  | .strVal s => some (.strVal s)
  | .bytesVal bs => some (.bytesVal bs)
  | .arrVal a => (hookArr a).map .arrVal
  | .objVal o =>
    match hookObj o with
    | none => none
    | some o' =>
      match o'.lookupLast "__bytes__" with
      | some (.strVal h) => (hexDecode h.data).map .bytesVal
      | some _ => none
      | none => some (.objVal o')
def hookArr : PyArr → Option PyArr
  | .nil => some .nil
  | .cons v t =>
    match hookVal v, hookArr t with
    | some v', some t' => some (.cons v' t')
    | _, _ => none
def hookObj : PyObj → Option PyObj
  | .nil => some .nil
  | .cons k v t =>
    match hookVal v, hookObj t with
    | some v', some t' => some (.cons k v' t')
    | _, _ => none
end

mutual
/-- Data that survives the wire unchanged: no raw byte strings anywhere, no
object with a `"__bytes__"` key (the decode hook would rewrite it), and no
duplicate keys within one object (JSON parsing would keep only the last). -/
def jsonSafeVal : PyVal → Bool
  | .null => true
  | .boolVal _ => true
  | .intVal _ => true
  | .strVal _ => true
  | .bytesVal _ => false
  | .arrVal a => jsonSafeArr a
  | .objVal o => jsonSafeObj o
def jsonSafeArr : PyArr → Bool
  | .nil => true
  | .cons v t => jsonSafeVal v && jsonSafeArr t
def jsonSafeObj : PyObj → Bool
  | .nil => true
  | .cons k v t =>
    !(k == "__bytes__") && !(PyObj.hasKey t k) && jsonSafeVal v && jsonSafeObj t
end

/-- `MessageProtocol.encode` (protocol.py lines 88-107) at the JSON-value
level: `to_dict` then the `dumps` transformation; the 4-byte big-endian
length prefix and UTF-8 text rendering that follow are external bijections
undone exactly by `decode`'s framing layer. -/
def encodeMessage (m : MessageBody) : Option PyVal :=
  dumpsVal m.to_dict

/-- `MessageProtocol.decode` (protocol.py lines 109-136) at the JSON-value
level: `json.loads(..., object_hook=message_decode_hook)` then
`MessageBody.from_dict`. -/
def decodeMessage (v : PyVal) : Option MessageBody :=
  (hookVal v).bind MessageBody.from_dict

/-- Decoding the framed bytes produced by `encode`. -/
def messageRoundTrip (m : MessageBody) : Option MessageBody :=
  (encodeMessage m).bind decodeMessage

theorem hasKey_false_lookupLast : ∀ (o : PyObj) (key : String),
    o.hasKey key = false → o.lookupLast key = none
  | .nil, _, _ => rfl
  | .cons k v t, key, h => by
    rw [PyObj.hasKey, Bool.or_eq_false_iff] at h
    rw [PyObj.lookupLast, hasKey_false_lookupLast t key h.2]
    simp [h.1]

theorem jsonSafeObj_no_bytes_key : ∀ o : PyObj, jsonSafeObj o = true →
    o.hasKey "__bytes__" = false
  | .nil, _ => rfl
  | .cons k v t, h => by
    rw [jsonSafeObj] at h
    simp only [Bool.and_eq_true, Bool.not_eq_true'] at h
    rw [PyObj.hasKey, Bool.or_eq_false_iff]
    exact ⟨h.1.1.1, jsonSafeObj_no_bytes_key t h.2⟩

mutual
theorem dumpsVal_safe_id : ∀ v : PyVal, jsonSafeVal v = true → dumpsVal v = some v
  | .null, _ => rfl
  | .boolVal _, _ => rfl
  | .intVal _, _ => rfl
  | .strVal _, _ => rfl
  | .arrVal a, h => by rw [dumpsVal, dumpsArr_safe_id a h]; rfl
  | .objVal o, h => by rw [dumpsVal, dumpsObj_safe_id o h]; rfl
theorem dumpsArr_safe_id : ∀ a : PyArr, jsonSafeArr a = true → dumpsArr a = some a
  | .nil, _ => rfl
  | .cons v t, h => by
    rw [jsonSafeArr, Bool.and_eq_true] at h
    rw [dumpsArr, dumpsVal_safe_id v h.1, dumpsArr_safe_id t h.2]
theorem dumpsObj_safe_id : ∀ o : PyObj, jsonSafeObj o = true → dumpsObj o = some o
  | .nil, _ => rfl
  | .cons k v t, h => by
    rw [jsonSafeObj] at h
    simp only [Bool.and_eq_true] at h
    rw [dumpsObj, dumpsVal_safe_id v h.1.2, dumpsObj_safe_id t h.2]
end

mutual
theorem hookVal_safe_id : ∀ v : PyVal, jsonSafeVal v = true → hookVal v = some v
  | .null, _ => rfl
  | .boolVal _, _ => rfl
  | .intVal _, _ => rfl
  | .strVal _, _ => rfl
  | .arrVal a, h => by rw [hookVal, hookArr_safe_id a h]; rfl
  | .objVal o, h => by
    have hl := hasKey_false_lookupLast o "__bytes__" (jsonSafeObj_no_bytes_key o h)
    simp [hookVal, hookObj_safe_id o h, hl]
theorem hookArr_safe_id : ∀ a : PyArr, jsonSafeArr a = true → hookArr a = some a
  | .nil, _ => rfl
  | .cons v t, h => by
    rw [jsonSafeArr, Bool.and_eq_true] at h
    rw [hookArr, hookVal_safe_id v h.1, hookArr_safe_id t h.2]
theorem hookObj_safe_id : ∀ o : PyObj, jsonSafeObj o = true → hookObj o = some o
  | .nil, _ => rfl
  | .cons k v t, h => by
    rw [jsonSafeObj] at h
    simp only [Bool.and_eq_true] at h
    rw [hookObj, hookVal_safe_id v h.1.2, hookObj_safe_id t h.2]
end

theorem from_dict_to_dict (m : MessageBody) :
    MessageBody.from_dict m.to_dict = some m := by
  cases m with
  | mk mt rid d ts err => cases mt <;> cases err <;> rfl

/-- C1 (amended): decoding the framed bytes produced by
`MessageProtocol.encode` restores the message exactly — the same `msg_type`,
`request_id`, `data` payload, ISO-8601 `timestamp` string and `error` field —
for every standard-envelope message whose `data` is wire-safe: free of raw
byte strings (and of `"__bytes__"`-keyed or duplicate-keyed objects).
Byte-valued fields are **not** restored: encode serialises with
`json.dumps(..., default=str)` rather than the tagged `MessageEncoder`, so
bytes reach the wire as plain strings (see the counterexample). -/
theorem message_roundtrip_bytefree (m : MessageBody)
    (h : jsonSafeVal m.data = true) :
    messageRoundTrip m = some m := by
  have hsafe : jsonSafeVal m.to_dict = true := by
    cases m with
    | mk mt rid d ts err =>
      cases err with
      | none =>
        simp only [MessageBody.to_dict, jsonSafeVal, jsonSafeObj, PyObj.hasKey]
        simp_all
      | some e =>
        simp only [MessageBody.to_dict, jsonSafeVal, jsonSafeObj, PyObj.hasKey]
        simp_all
  show (dumpsVal m.to_dict).bind decodeMessage = some m
  rw [dumpsVal_safe_id m.to_dict hsafe]
  show (hookVal m.to_dict).bind MessageBody.from_dict = some m
  rw [hookVal_safe_id m.to_dict hsafe]
  exact from_dict_to_dict m

/-- Witness for C1 at a concrete message: a request with a nested byte-free
JSON object as data round-trips to itself, timestamp string included. -/
theorem message_roundtrip_bytefree_witness :
    jsonSafeVal (PyVal.objVal (.cons "x" (.intVal 3)
        (.cons "y" (.arrVal (.cons (.strVal "a") .nil)) .nil))) = true
    ∧ messageRoundTrip
        ⟨.request, "r1",
          .objVal (.cons "x" (.intVal 3)
            (.cons "y" (.arrVal (.cons (.strVal "a") .nil)) .nil)),
          "2024-01-02T03:04:05.678901", none⟩
      = some ⟨.request, "r1",
          .objVal (.cons "x" (.intVal 3)
            (.cons "y" (.arrVal (.cons (.strVal "a") .nil)) .nil)),
          "2024-01-02T03:04:05.678901", none⟩ :=
  ⟨rfl, message_roundtrip_bytefree _ rfl⟩

/-- Counterexample for C1 as stated: a message whose `data` is the raw byte
string `b"hi"` decodes to a message whose `data` is the plain string `"hi"` —
the bytes are transcoded by `json.dumps(..., default=str)` (the
`MessageEncoder` that would tag them `{"__bytes__": hex}` is not used), and
the decode hook finds no tag to reverse — so the byte-valued field is not
restored and the round-trip is not the identity. -/
theorem message_roundtrip_bytes_counterexample :
    messageRoundTrip
        ⟨.request, "r1", .bytesVal [104, 105], "2024-01-02T03:04:05", none⟩
      = some ⟨.request, "r1", .strVal "hi", "2024-01-02T03:04:05", none⟩
    ∧ messageRoundTrip
        ⟨.request, "r1", .bytesVal [104, 105], "2024-01-02T03:04:05", none⟩
      ≠ some ⟨.request, "r1", .bytesVal [104, 105], "2024-01-02T03:04:05", none⟩ := by
  refine ⟨rfl, fun hcontra => ?_⟩
  rw [show messageRoundTrip
      ⟨.request, "r1", .bytesVal [104, 105], "2024-01-02T03:04:05", none⟩
    = some ⟨.request, "r1", .strVal "hi", "2024-01-02T03:04:05", none⟩ from rfl]
    at hcontra
  injection hcontra with hmsg
  injection hmsg with h1 h2 h3 h4 h5
  exact PyVal.noConfusion h3

/-! ## IPC socket client, legacy protocol (claim C2)

Embedding of `SocketClient._handle_message` (socket_client.py lines 267-313)
and the message-processing step of `SocketClient._receiving_loop` (lines
198-233) from `src/utils/ipc/socket_client.py`.  A received message is a
parsed JSON object (`PyObj`); the pending-request table maps request ids to
futures, modelled as `(request_id, done)` pairs.  The embedding follows the
source line by line — in particular line 291, `message = message.get
("message") or ""`, rebinds the local `message` from the received dict to
the response's `"message"` field (or `""`), so that line 295,
`future.set_result(message.get("data") or {})`, calls `.get` on that value:
an `AttributeError` unless it happens to be a dict.  `Except` models an
exception escaping `_handle_message`; the receive loop catches it, logs and
`break`s (line 218-220), ending the loop. -/

/-- Python truthiness for the values of our universe. -/
def pyTruthy : PyVal → Bool
  | .null => false
  | .boolVal b => b
  | .intVal n => decide (n ≠ 0)
  | .strVal s => !(s == "")
  | .bytesVal bs => !bs.isEmpty
  | .arrVal .nil => false
  | .arrVal _ => true
  | .objVal .nil => false
  | .objVal _ => true

/-- Python `v == "literal"`: true exactly for the equal string. -/
def isStrVal (v : PyVal) (s : String) : Bool :=
  match v with
  | .strVal t => t == s
  | _ => false

/-- `self._pending_requests.pop(request_id, None)`: the future and the
remaining table, or `none` when no entry matches. -/
def popRequest : List (String × Bool) → String → Option (Bool × List (String × Bool))
  | [], _ => none
  | (k, d) :: t, key =>
    if k == key then some (d, t)
    else (popRequest t key).map (fun r => (r.1, (k, d) :: r.2))

/-- How a pending future is completed: `set_result` with the data payload,
or `set_exception` carrying the response's message field. -/
inductive FutureResolution where
  | success (data : PyVal)
  | failure (message : PyVal)

/-- The outcome of `_handle_message` when it returns normally: the updated
pending table, at most one future resolution, and at most one push
delivered to the data callback (discriminator, payload). -/
structure HandleResult where
  pending : List (String × Bool)
  resolution : Option (String × FutureResolution)
  push : Option (PyVal × PyVal)

/-- `SocketClient._handle_message` (socket_client.py lines 267-313).
`.error` is an exception escaping the method; every line of the source maps
onto one branch, including the rebinding of `message` on line 291 whose
value line 295 then calls `.get("data")` on. -/
def handle_message (pending : List (String × Bool)) (msg : PyObj) :
    Except String HandleResult :=
  match msg.lookupLast "type" with
  | none => .ok ⟨pending, none, none⟩
  | some mtype =>
    if isStrVal mtype "response" then
      let rid := (msg.lookupLast "request_id").getD .null
      if !(pyTruthy rid) then .ok ⟨pending, none, none⟩
      else
        match rid with
        | .strVal ridStr =>
          match popRequest pending ridStr with
          | none => .ok ⟨pending, none, none⟩
          | some (done, pending') =>
            if done then .ok ⟨pending', none, none⟩
            else
              let msgField := (msg.lookupLast "message").getD .null
              let message2 := if pyTruthy msgField then msgField else .strVal ""
              if (match msg.lookupLast "status" with
                  | some v => isStrVal v "error"
                  | none => false) then
                .ok ⟨pending', some (ridStr, .failure message2), none⟩
              else
                match message2 with
                | .objVal o =>
                  let dv := (o.lookupLast "data").getD .null
                  .ok ⟨pending', some (ridStr,
                    .success (if pyTruthy dv then dv else .objVal .nil)), none⟩
                | _ => .error "AttributeError: object has no attribute get"
        | _ =>
          .ok ⟨pending, none, none⟩
    else
      .ok ⟨pending, none, some (mtype, (msg.lookupLast "data").getD (.objVal .nil))⟩

/-- Whether the receive loop keeps running after processing one message. -/
inductive LoopOutcome where
  | keepRunning
  | stopped
  deriving DecidableEq, Repr

/-- One iteration of `SocketClient._receiving_loop` (socket_client.py lines
198-233): an absent message (connection closed) breaks the loop; an
exception from `_handle_message` is caught by the loop's
`except Exception` handler, logged, and breaks the loop; otherwise the loop
continues with the updated pending table. -/
def receiving_loop_step (pending : List (String × Bool)) (msg : Option PyObj) :
    LoopOutcome × List (String × Bool) × Option (String × FutureResolution) :=
  match msg with
  | none => (.stopped, pending, none)
  | some m =>
    match handle_message pending m with
    | .ok r => (.keepRunning, r.pending, r.resolution)
    | .error _ => (.stopped, pending, none)

/-- A well-formed success response carrying the request id of a pending
request: `{"type": "response", "request_id": "r1", "status": "ok",
"data": {"balance": 100}}`. -/
def successResponseMsg : PyObj :=
  .cons "type" (.strVal "response")
    (.cons "request_id" (.strVal "r1")
      (.cons "status" (.strVal "ok")
        (.cons "data" (.objVal (.cons "balance" (.intVal 100) .nil)) .nil)))

/-- An error response on the same request id, with a message. -/
def errorResponseMsg : PyObj :=
  .cons "type" (.strVal "response")
    (.cons "request_id" (.strVal "r1")
      (.cons "status" (.strVal "error")
        (.cons "message" (.strVal "boom") .nil)))

/-- C2 is violated by the code (a bug, not an intended behaviour): on a
response whose status is not "error" and which matches a pending request,
line 291 has rebound `message` to the response's `"message"` field coerced
to `""`, so line 295 calls `.get("data")` on a string and raises
`AttributeError`; the receive loop catches it and exits, so the pending
future is never resolved and no further messages are processed on the
connection.  By contrast an error-status response (which never reaches line
295) resolves as a failure and the loop continues — the success path alone
is broken, against the comment directly above line 295 and spec §4.18. -/
theorem response_success_raises_and_stops_loop :
    handle_message [("r1", false)] successResponseMsg
      = .error "AttributeError: object has no attribute get"
    ∧ receiving_loop_step [("r1", false)] (some successResponseMsg)
      = (.stopped, [("r1", false)], none)
    ∧ handle_message [("r1", false)] errorResponseMsg
      = .ok ⟨[], some ("r1", .failure (.strVal "boom")), none⟩
    ∧ receiving_loop_step [("r1", false)] (some errorResponseMsg)
      = (.keepRunning, [], some ("r1", .failure (.strVal "boom"))) := by
  exact ⟨rfl, rfl, rfl, rfl⟩

end QTrader
